import Mathlib

/-!
Verification of the aggregation and ranking engine of the simple-backend
repository (src/simple_backend/main.py), as a shallow embedding in Lean.

Python strings are modelled as lists of characters; floats are modelled as
rationals; a function that can raise becomes a function into Except.
-/

namespace SimpleBackend

/-- A Python string, modelled as its sequence of characters. -/
abbrev Str := List Char

/-! ## Text Normalizer (main.py, normalize_text, lines 277-284)

`normalize_text` lower-cases the text, decomposes it (unicodedata NFD) and
drops the combining diacritical marks (category Mn).  The embedding models
`str.lower` and the NFD decomposition on the Latin-1 fragment by explicit
tables: characters outside the tables are left untouched. -/
/-- Lookup in an association table keyed by characters. -/
def assocFind {α : Type} (tbl : List (Char × α)) (c : Char) : Option α :=
  match tbl with
  | [] => none
  | p :: ps => if p.1 = c then some p.2 else assocFind ps c

/-- Upper-case to lower-case table: ASCII A-Z and the Latin-1 capitals. -/
def lowerTbl : List (Char × Char) :=
  [('A', 'a'), ('B', 'b'), ('C', 'c'), ('D', 'd'), ('E', 'e'), ('F', 'f'),
   ('G', 'g'), ('H', 'h'), ('I', 'i'), ('J', 'j'), ('K', 'k'), ('L', 'l'),
   ('M', 'm'), ('N', 'n'), ('O', 'o'), ('P', 'p'), ('Q', 'q'), ('R', 'r'),
   ('S', 's'), ('T', 't'), ('U', 'u'), ('V', 'v'), ('W', 'w'), ('X', 'x'),
   ('Y', 'y'), ('Z', 'z'),
   ('À', 'à'), ('Á', 'á'), ('Â', 'â'), ('Ã', 'ã'), ('Ä', 'ä'), ('Å', 'å'),
   ('Æ', 'æ'), ('Ç', 'ç'), ('È', 'è'), ('É', 'é'), ('Ê', 'ê'), ('Ë', 'ë'),
   ('Ì', 'ì'), ('Í', 'í'), ('Î', 'î'), ('Ï', 'ï'), ('Ð', 'ð'), ('Ñ', 'ñ'),
   ('Ò', 'ò'), ('Ó', 'ó'), ('Ô', 'ô'), ('Õ', 'õ'), ('Ö', 'ö'), ('Ø', 'ø'),
   ('Ù', 'ù'), ('Ú', 'ú'), ('Û', 'û'), ('Ü', 'ü'), ('Ý', 'ý'), ('Þ', 'þ')]

/-- Python `str.lower` on one character (Latin-1 fragment). -/
def pyLower (c : Char) : Char := (assocFind lowerTbl c).getD c

/-- NFD decomposition table for the Latin-1 lower-case accented letters:
each maps to its base letter followed by a combining mark (category Mn). -/
def nfdTbl : List (Char × Str) :=
  [('à', ['a', '̀']), ('á', ['a', '́']), ('â', ['a', '̂']),
   ('ã', ['a', '̃']), ('ä', ['a', '̈']), ('å', ['a', '̊']),
   ('ç', ['c', '̧']),
   ('è', ['e', '̀']), ('é', ['e', '́']), ('ê', ['e', '̂']),
   ('ë', ['e', '̈']),
   ('ì', ['i', '̀']), ('í', ['i', '́']), ('î', ['i', '̂']),
   ('ï', ['i', '̈']),
   ('ñ', ['n', '̃']),
   ('ò', ['o', '̀']), ('ó', ['o', '́']), ('ô', ['o', '̂']),
   ('õ', ['o', '̃']), ('ö', ['o', '̈']),
   ('ù', ['u', '̀']), ('ú', ['u', '́']), ('û', ['u', '̂']),
   ('ü', ['u', '̈']),
   ('ý', ['y', '́']), ('ÿ', ['y', '̈'])]

/-- NFD decomposition of one character (identity outside the table). -/
def nfdChar (c : Char) : Str := (assocFind nfdTbl c).getD [c]

/-- Unicode category Mn on the fragment used here: the combining
diacritical marks block U+0300 - U+036F. -/
def isMn (c : Char) : Bool := decide (0x300 ≤ c.toNat ∧ c.toNat ≤ 0x36F)

/-- main.py `normalize_text`: lower-case, NFD-decompose, drop Mn marks. -/
def normalize_text (s : Str) : Str :=
  ((s.map pyLower).flatMap nfdChar).filter (fun c => !(isMn c))

/-- A character that passes through `normalize_text` unchanged. -/
def fixedPt (c : Char) : Bool := normalize_text [c] == [c]

/-! ## Generic Python-style helpers -/
/-- Python whitespace (the characters str.split() splits on). -/
def isSpacePy (c : Char) : Bool :=
  c = ' ' || c = '\t' || c = '\n' || c = '\r' || c.toNat = 11 || c.toNat = 12

/-- Helper of `splitWs`: accumulates the current word reversed. -/
def splitWsAux : Str → Str → List Str
  | [], acc => if acc.isEmpty then [] else [acc.reverse]
  | c :: cs, acc =>
    if isSpacePy c then
      if acc.isEmpty then splitWsAux cs []
      else acc.reverse :: splitWsAux cs []
    else splitWsAux cs (c :: acc)

/-- Python str.split() with no arguments: split on whitespace runs. -/
def splitWs (s : Str) : List Str := splitWsAux s []

/-- Python substring membership `needle in hay` on strings. -/
def isSubstr : Str → Str → Bool
  | n, [] => n.isEmpty
  | n, c :: t => n.isPrefixOf (c :: t) || isSubstr n t

/-- Python `enumerate(l, start=i)`. -/
def pyEnumFrom {α : Type} (i : ℕ) : List α → List (ℕ × α)
  | [] => []
  | a :: l => (i, a) :: pyEnumFrom (i + 1) l

/-- Python `min(l, key=f)` over a nonempty list `a :: l`:
keeps the first element attaining the minimum. -/
def pyMinBy {α : Type} (f : α → ℚ) : α → List α → α
  | a, [] => a
  | a, b :: l => pyMinBy f (if f b < f a then b else a) l

/-- Python `max(l, key=f)` over a nonempty list `a :: l`:
keeps the first element attaining the maximum. -/
def pyMaxBy {α : Type} (f : α → ℚ) : α → List α → α
  | a, [] => a
  | a, b :: l => pyMaxBy f (if f b > f a then b else a) l

/-- Python round(x, 2): round to 2 decimal places, ties to even. -/
def pyRound2 (x : ℚ) : ℚ :=
  let y := x * 100
  let f := ⌊y⌋
  let r := y - f
  if r < 1/2 then f / 100
  else if 1/2 < r then (f + 1) / 100
  else if f % 2 = 0 then f / 100 else (f + 1) / 100

/-- Sum of a list of rationals (Python `sum`). -/
def pySum (l : List ℚ) : ℚ := l.foldl (· + ·) 0

/-! ## Data model (main.py pydantic models) -/
structure Location where
  lat : ℚ
  lon : ℚ
deriving DecidableEq

structure SearchFilters where
  max_price : Option ℚ := none
  category : Option Str := none
  brand : Option Str := none
  payment_method : Option Str := none
deriving DecidableEq

structure ProductResult where
  product_id : ℕ
  name : Str
  brand : Option Str
  category : Option Str
  image_url : Option Str
  product_url : Option Str := none
  price : ℚ
  currency : Str
  store_id : ℕ
  store_name : Str
  store_location : Location
  distance_km : Option ℚ
  payment_methods : List Str
deriving DecidableEq

structure PriceComparison where
  product_name : Str
  brand : Option Str
  stores : List ProductResult
  cheapest : ProductResult
  most_expensive : ProductResult
  price_difference : ℚ
  average_price : ℚ
  savings_percentage : ℚ
deriving DecidableEq

structure ProductRecommendation where
  product : ProductResult
  reason : Str
  score : ℚ
deriving DecidableEq

structure PriceStatistics where
  product_name : Str
  count : ℕ
  min_price : ℚ
  max_price : ℚ
  average_price : ℚ
  median_price : ℚ
  stores : List (Str × ℚ)
deriving DecidableEq

/-! ## Sorting (Python stable `list.sort(key=...)`)

Python `list.sort` is a stable ascending sort by the key tuple; Mathlib's
`List.insertionSort r` with a non-strict total preorder `r` has exactly the
same stable semantics (an element is inserted before the later elements it
ties with). -/
/-- Sort key of `smart_search_filter` price branch and of the scrapers
without a location: ascending price. -/
def priceLe (a b : ProductResult) : Prop := a.price ≤ b.price

instance : DecidableRel priceLe := fun a b => by
  unfold priceLe
  infer_instance

instance : IsTotal ProductResult priceLe :=
  ⟨fun a b => le_total a.price b.price⟩

instance : IsTrans ProductResult priceLe :=
  ⟨fun _ _ _ hab hbc => le_trans hab hbc⟩

/-- Sort key of the `smart_search_filter` premium branch:
descending price (Python `reverse=True`). -/
def priceGe (a b : ProductResult) : Prop := b.price ≤ a.price

instance : DecidableRel priceGe := fun a b => by
  unfold priceGe
  infer_instance

instance : IsTotal ProductResult priceGe :=
  ⟨fun a b => (le_total b.price a.price).imp id id⟩

instance : IsTrans ProductResult priceGe :=
  ⟨fun _ _ _ hab hbc => le_trans hbc hab⟩

/-- Python string order (code-point lexicographic), as used when comparing
`store_name` values inside a sort key tuple. -/
def strLe (a b : Str) : Prop := a ≤ b

instance : DecidableRel strLe := fun a b => by
  unfold strLe
  infer_instance

/-- Sort key of step 5 of `search_all_stores` without a user location:
the tuple `(r.price, r.store_name)` compared lexicographically. -/
def priceStoreLe (a b : ProductResult) : Prop :=
  a.price < b.price ∨ (a.price = b.price ∧ strLe a.store_name b.store_name)

instance : DecidableRel priceStoreLe := fun a b => by
  unfold priceStoreLe strLe
  infer_instance

instance : IsTotal ProductResult priceStoreLe := by
  constructor
  intro a b
  rcases lt_trichotomy a.price b.price with h | h | h
  · exact Or.inl (Or.inl h)
  · rcases le_total a.store_name b.store_name with hs | hs
    · exact Or.inl (Or.inr ⟨h, hs⟩)
    · exact Or.inr (Or.inr ⟨h.symm, hs⟩)
  · exact Or.inr (Or.inl h)

instance : IsTrans ProductResult priceStoreLe := by
  constructor
  intro a b c hab hbc
  rcases hab with h1 | ⟨h1, hs1⟩
  · rcases hbc with h2 | ⟨h2, _⟩
    · exact Or.inl (h1.trans h2)
    · exact Or.inl (h2 ▸ h1)
  · rcases hbc with h2 | ⟨h2, hs2⟩
    · exact Or.inl (h1 ▸ h2)
    · exact Or.inr ⟨h1.trans h2, le_trans hs1 hs2⟩

/-- Sort key of the scrapers with a location: ascending
`(distance_km or 999999, price)`. -/
def distPriceLe (a b : ProductResult) : Prop :=
  a.distance_km.getD 999999 < b.distance_km.getD 999999 ∨
    (a.distance_km.getD 999999 = b.distance_km.getD 999999 ∧ a.price ≤ b.price)

instance : DecidableRel distPriceLe := fun a b => by
  unfold distPriceLe
  infer_instance

instance : IsTotal ProductResult distPriceLe := by
  constructor
  intro a b
  rcases lt_trichotomy (a.distance_km.getD 999999) (b.distance_km.getD 999999)
    with h | h | h
  · exact Or.inl (Or.inl h)
  · rcases le_total a.price b.price with hp | hp
    · exact Or.inl (Or.inr ⟨h, hp⟩)
    · exact Or.inr (Or.inr ⟨h.symm, hp⟩)
  · exact Or.inr (Or.inl h)

instance : IsTrans ProductResult distPriceLe := by
  constructor
  intro a b c hab hbc
  rcases hab with h1 | ⟨h1, hp1⟩
  · rcases hbc with h2 | ⟨h2, _⟩
    · exact Or.inl (h1.trans h2)
    · exact Or.inl (h2 ▸ h1)
  · rcases hbc with h2 | ⟨h2, hp2⟩
    · exact Or.inl (h1 ▸ h2)
    · exact Or.inr ⟨h1.trans h2, le_trans hp1 hp2⟩

/-- Sort key of `generate_recommendations`: descending score. -/
def scoreGe (a b : ProductRecommendation) : Prop := b.score ≤ a.score

instance : DecidableRel scoreGe := fun a b => by
  unfold scoreGe
  infer_instance

instance : IsTotal ProductRecommendation scoreGe :=
  ⟨fun a b => (le_total b.score a.score).imp id id⟩

instance : IsTrans ProductRecommendation scoreGe :=
  ⟨fun _ _ _ hab hbc => le_trans hbc hab⟩

/-! ## Deduplication (step 6 of search_all_stores, lines 1396-1403) -/
/-- The dedup key of `search_all_stores`:
`normalize_text(f"{r.name} {r.brand or ''}")`. -/
def dedupKey (r : ProductResult) : Str :=
  normalize_text (r.name ++ [' '] ++ r.brand.getD [])

/-- The mutable-seen-set dedup loop of `search_all_stores`, with the seen
set made explicit. -/
def dedupeAux (seen : List Str) : List ProductResult → List ProductResult
  | [] => []
  | r :: rs =>
    if dedupKey r ∈ seen then dedupeAux seen rs
    else r :: dedupeAux (dedupKey r :: seen) rs

def dedupe (l : List ProductResult) : List ProductResult := dedupeAux [] l

/-! ## Query Corrector (main.py, correct_search_query, lines 289-314)

The fuzzy scorer (fuzzywuzzy token_set_ratio) is an external library and is
modelled as an abstract scoring function on a 0-100 scale; `extractOne`
models fuzzywuzzy `process.extractOne`, which keeps the first choice
attaining the best score. -/
/-- Python str.lower on a whole string. -/
def pyLowerStr (s : Str) : Str := s.map pyLower

/-- The built-in default vocabulary of `correct_search_query`. -/
def DEFAULT_SUGGESTIONS : List Str :=
  ["iphone".data, "samsung".data, "huawei".data, "xiaomi".data,
   "motorola".data, "nokia".data, "sony".data, "lg".data,
   "panasonic".data, "tcl".data, "acer".data, "asus".data, "hp".data,
   "lenovo".data, "celular".data, "smartphone".data, "tablet".data,
   "laptop".data, "televisor".data, "tv".data, "auriculares".data,
   "headphones".data, "smartwatch".data, "watch".data, "mica".data,
   "protector".data, "cargador".data, "cable".data, "bateria".data,
   "funda".data, "case".data, "pura".data, "pro".data, "ultra".data,
   "max".data, "plus".data, "lite".data, "se".data]

/-- Python `if not suggestions:` is true for None and for an empty list. -/
def effectiveSuggestions (suggestions : Option (List Str)) : List Str :=
  match suggestions with
  | none => DEFAULT_SUGGESTIONS
  | some [] => DEFAULT_SUGGESTIONS
  | some l => l

/-- fuzzywuzzy process.extractOne main loop: keeps the first choice whose
score strictly exceeds the best so far. -/
def extractOneAux (scorer : Str → Str → ℕ) (q : Str) :
    Str × ℕ → List Str → Str × ℕ
  | best, [] => best
  | best, s :: rest =>
    extractOneAux scorer q
      (if best.2 < scorer q s then (s, scorer q s) else best) rest

/-- fuzzywuzzy process.extractOne: none only on an empty choice list. -/
def extractOne (scorer : Str → Str → ℕ) (q : Str) :
    List Str → Option (Str × ℕ)
  | [] => none
  | s :: rest => some (extractOneAux scorer q (s, scorer q s) rest)

/-- main.py `correct_search_query`: exact case-insensitive vocabulary hit
returns the query; otherwise the best fuzzy match is returned when its
score strictly exceeds 80; otherwise the query is returned unmodified. -/
def correct_search_query (scorer : Str → Str → ℕ) (query : Str)
    (suggestions : Option (List Str)) : Str :=
  if ((effectiveSuggestions suggestions).map pyLowerStr).contains
      (pyLowerStr query) then query
  else
    match extractOne scorer (pyLowerStr query)
        (effectiveSuggestions suggestions) with
    | none => query
    | some (s, sc) => if 80 < sc then s else query

/-! ## Intent Filter (main.py, smart_search_filter, lines 317-351) -/
/-- Price-sensitive intent keywords. -/
def priceWords : List Str :=
  ["barato".data, "economico".data, "oferta".data, "descuento".data,
   "rebajado".data]

/-- Premium intent keywords. -/
def premiumWords : List Str :=
  ["premium".data, "caro".data, "lujo".data, "top".data, "mejor".data]

/-- The fixed keyword-to-brand map, in dict insertion order. -/
def brand_keywords : List (Str × Str) :=
  [("apple".data, "Apple".data), ("samsung".data, "Samsung".data),
   ("huawei".data, "Huawei".data), ("xiaomi".data, "Xiaomi".data),
   ("sony".data, "Sony".data)]

/-- `any(word in query_lower for word in ws)`. -/
def anyWordIn (ws : List Str) (t : Str) : Bool := ws.any (fun w => isSubstr w t)

/-- Arithmetic mean price of a product list (0 on the empty list), as the
premium branch computes its threshold. -/
def meanPrice (products : List ProductResult) : ℚ :=
  if products.isEmpty then 0
  else pySum (products.map (fun p => p.price)) / products.length

/-- Brand filter predicate: `p.brand and brand.lower() in p.brand.lower()`. -/
def brandMatches (brand : Str) (p : ProductResult) : Bool :=
  match p.brand with
  | some b => isSubstr (pyLowerStr brand) (pyLowerStr b)
  | none => false

/-- The final `for keyword, brand in brand_keywords.items():` loop of
smart_search_filter: the first keyword found in the query wins; if none is
found the products are returned unchanged. -/
def brandLoop (query_lower : Str) (products : List ProductResult) :
    List (Str × Str) → List ProductResult
  | [] => products
  | (kw, brand) :: rest =>
    if isSubstr kw query_lower then products.filter (brandMatches brand)
    else brandLoop query_lower products rest

/-- main.py `smart_search_filter`: detects at most one intent class in
the normalized query, in the order price-sensitive, premium, brand. -/
def smart_search_filter (products : List ProductResult) (query : Str) :
    List ProductResult :=
  let query_lower := normalize_text query
  if anyWordIn priceWords query_lower then
    (List.insertionSort priceLe products).take 10
  else if anyWordIn premiumWords query_lower then
    (List.insertionSort priceGe
      (products.filter (fun p => meanPrice products ≤ p.price))).take 10
  else brandLoop query_lower products brand_keywords

/-- Sample product record builder used by concrete test inputs. -/
def sampleRec (name : Str) (brand : Option Str) (price : ℚ) (sid : ℕ)
    (sname : Str) (dist : Option ℚ) : ProductResult :=
  { product_id := 1, name := name, brand := brand, category := none,
    image_url := none, product_url := none, price := price,
    currency := "PEN".data, store_id := sid, store_name := sname,
    store_location := { lat := -12, lon := -77 }, distance_km := dist,
    payment_methods := ["tarjeta".data, "efectivo".data] }

/-! ## Comparator / Statistics (main.py, get_price_comparison lines
354-387, get_price_statistics lines 390-425) -/
/-- The record-matching filter shared by `get_price_comparison` and
`get_price_statistics`: normalized name, or normalized name-plus-brand,
equals the normalized product name. -/
def matchingProducts (products : List ProductResult) (product_name : Str) :
    List ProductResult :=
  let norm_name := normalize_text product_name
  products.filter (fun p =>
    normalize_text p.name == norm_name ||
      normalize_text (p.name ++ [' '] ++ p.brand.getD []) == norm_name)

/-- main.py `get_price_comparison`.  The source's
`if len(matching_products) < 2: return None` is rendered as the first two
match arms. -/
def get_price_comparison (products : List ProductResult)
    (product_name : Str) : Option PriceComparison :=
  if products.isEmpty then none
  else
    match matchingProducts products product_name with
    | [] => none
    | [_] => none
    | p0 :: p1 :: rest =>
      let mp := p0 :: p1 :: rest
      let prices := mp.map (fun p => p.price)
      let cheapest := pyMinBy (fun p => p.price) p0 (p1 :: rest)
      let most_expensive := pyMaxBy (fun p => p.price) p0 (p1 :: rest)
      let average_price := pySum prices / mp.length
      let price_difference := most_expensive.price - cheapest.price
      let savings_percentage :=
        if 0 < most_expensive.price then
          price_difference / most_expensive.price * 100
        else 0
      some { product_name := product_name, brand := p0.brand, stores := mp,
             cheapest := cheapest, most_expensive := most_expensive,
             price_difference := price_difference,
             average_price := average_price,
             savings_percentage := pyRound2 savings_percentage }

/-- main.py `get_price_statistics`.  The source's
`if not matching_products: return None` is the first match arm. -/
def get_price_statistics (products : List ProductResult)
    (product_name : Str) : Option PriceStatistics :=
  if products.isEmpty then none
  else
    match matchingProducts products product_name with
    | [] => none
    | p0 :: rest =>
      let mp := p0 :: rest
      let prices := List.insertionSort (· ≤ ·) (mp.map (fun p => p.price))
      let count := prices.length
      let min_price := pyMinBy id (prices.headD 0) prices.tail
      let max_price := pyMaxBy id (prices.headD 0) prices.tail
      let average_price := pySum prices / count
      let median_price :=
        if count % 2 = 1 then prices.getD (count / 2) 0
        else (prices.getD (count / 2 - 1) 0 + prices.getD (count / 2) 0) / 2
      some { product_name := product_name, count := count,
             min_price := min_price, max_price := max_price,
             average_price := pyRound2 average_price,
             median_price := pyRound2 median_price,
             stores := mp.foldl
               (fun d p =>
                 if d.any (fun e => e.1 == p.store_name) then
                   d.map (fun e =>
                     if e.1 == p.store_name then (p.store_name, p.price) else e)
                 else d ++ [(p.store_name, p.price)]) [] }

/-- The standard odd/even median formula on the sorted price list, as the
spec describes it. -/
def medianStd (l : List ℚ) : ℚ :=
  let s := List.insertionSort (· ≤ ·) l
  if s.length % 2 = 1 then s.getD (s.length / 2) 0
  else (s.getD (s.length / 2 - 1) 0 + s.getD (s.length / 2) 0) / 2

/-! ## Recommender (main.py, generate_recommendations, lines 428-470) -/
/-- The fixed trusted-store allow-list. -/
def trusted_stores : List Str :=
  ["Hiraoka Online".data, "Falabella Online".data]

/-- main.py `generate_recommendations`: per record of the first 10, start
at 100, adjust for price vs mean, trusted store and position, clamp at
100, then sort descending by score. -/
def generate_recommendations (products : List ProductResult) (query : Str) :
    List ProductRecommendation :=
  match products with
  | [] => []
  | _ :: _ =>
    let avg_price := pySum (products.map (fun p => p.price)) / products.length
    let recs := (pyEnumFrom 0 (products.take 10)).map (fun ip =>
      let idx := ip.1
      let product := ip.2
      let priceAdj : ℚ :=
        if product.price < avg_price * (8/10) then 20
        else if avg_price * (12/10) < product.price then -15 else 0
      let priceReason : List Str :=
        if product.price < avg_price * (8/10) then ["Muy buen precio".data]
        else if avg_price * (12/10) < product.price then
          ["Precio elevado".data]
        else []
      let trustAdj : ℚ := if product.store_name ∈ trusted_stores then 15 else 0
      let trustReason : List Str :=
        if product.store_name ∈ trusted_stores then
          ["Vendido por ".data ++ product.store_name]
        else []
      let score : ℚ := 100 + priceAdj + trustAdj + (10 - (idx : ℚ))
      let reasons := priceReason ++ trustReason
      { product := product,
        reason :=
          if reasons.isEmpty then "Producto relevante".data
          else List.intercalate "; ".data reasons,
        score := min 100 score })
    List.insertionSort scoreGe recs

/-- Concrete input for the C10 witness. -/
def psC10 : List ProductResult := [sampleRec "a".data none 10 1 "X".data none]

/-- The single recommendation generated from `psC10`. -/
def recC10 : ProductRecommendation :=
  { product := sampleRec "a".data none 10 1 "X".data none,
    reason := "Producto relevante".data, score := 100 }

/-! ## Live scrapers (main.py, scrape_hiraoka_live lines 475-608 and
scrape_falabella_live lines 610-764)

The HTTP fetch and HTML parse are modelled by a list of already-parsed
product cards (one per HTML product node); a card field is `none` when the
corresponding element is missing or unparsable, which the source skips
with `continue`.  `haversine_km` composed with `round(_, 3)` is modelled
by an abstract distance function `geo`. -/
/-- Store coordinates: -12.06 and -77.04 (HIRAOKA_LAT/LON and
FALABELLA_LAT/LON in the source), written as reduced fractions. -/
def STORE_LAT : ℚ := Rat.mk' (-603) 50

def STORE_LON : ℚ := Rat.mk' (-1926) 25

def HIRAOKA_LOCATION : Location := { lat := STORE_LAT, lon := STORE_LON }

def FALABELLA_LOCATION : Location := { lat := STORE_LAT, lon := STORE_LON }

/-- One parsed Hiraoka product card. -/
structure HiraokaCard where
  name : Option Str
  href : Option Str
  brand : Option Str
  price : Option ℚ
  image_url : Option Str
deriving DecidableEq

/-- One parsed Falabella product pod. -/
structure FalabellaPod where
  href : Option Str
  brand : Option Str
  name : Option Str
  price : Option ℚ
  image_url : Option Str
deriving DecidableEq

/-- The simple per-item max_price/brand filter both scrapers apply. -/
def passesFilters (filters : Option SearchFilters) (price : ℚ)
    (brand : Option Str) : Bool :=
  match filters with
  | none => true
  | some f =>
    (match f.max_price with
     | some m => decide (price ≤ m)
     | none => true) &&
    (match f.brand with
     | some fb =>
       (match brand with
        | some b => isSubstr (pyLowerStr fb) (pyLowerStr b)
        | none => false)
     | none => true)

/-- href handling shared by both scrapers: a relative href gets the site
origin prepended; an empty or missing href becomes None. -/
def scraperUrl (origin : Str) (href : Option Str) : Option Str :=
  match href with
  | none => none
  | some [] => none
  | some (c :: t) => if c = '/' then some (origin ++ c :: t) else some (c :: t)

/-- Final per-scraper ordering: `(distance_km or 999999, price)` with a
location, plain price without. -/
def scraperSort (user_location : Option Location)
    (results : List ProductResult) : List ProductResult :=
  match user_location with
  | some _ => List.insertionSort distPriceLe results
  | none => List.insertionSort priceLe results

/-- The Hiraoka per-card body: skips on a missing name or price, applies
the simple filters, and builds the record.  No strict text filter is
applied (the source docstring says so explicitly). -/
def hiraokaBuild (geo : Location → Location → ℚ)
    (user_location : Option Location) (filters : Option SearchFilters)
    (ic : ℕ × HiraokaCard) : Option ProductResult :=
  match ic.2.name with
  | none => none
  | some name =>
    match ic.2.price with
    | none => none
    | some price =>
      if passesFilters filters price ic.2.brand = false then none
      else
        some
          { product_id := ic.1, name := name, brand := ic.2.brand,
            category := none, image_url := ic.2.image_url,
            product_url := scraperUrl "https://hiraoka.com.pe".data ic.2.href,
            price := price, currency := "PEN".data, store_id := 1,
            store_name := "Hiraoka Online".data,
            store_location := HIRAOKA_LOCATION,
            distance_km := user_location.map (fun u => geo u HIRAOKA_LOCATION),
            payment_methods := ["tarjeta".data, "efectivo".data] }

/-- main.py `scrape_hiraoka_live` after the HTTP/HTML stage: iterate the
cards with indices from 1, build records, sort. -/
def scrape_hiraoka_live (geo : Location → Location → ℚ) (query : Str)
    (user_location : Option Location) (filters : Option SearchFilters)
    (cards : List HiraokaCard) : List ProductResult :=
  scraperSort user_location
    ((pyEnumFrom 1 cards).filterMap (hiraokaBuild geo user_location filters))

/-- The Falabella per-pod body: skips on a missing name, then applies the
STRICT word filter (every normalized query token must be an exact word of
the normalized name+brand), then price, filters, record build. -/
def falabellaBuild (geo : Location → Location → ℚ) (query : Str)
    (user_location : Option Location) (filters : Option SearchFilters)
    (ic : ℕ × FalabellaPod) : Option ProductResult :=
  match ic.2.name with
  | none => none
  | some name =>
    if !(splitWs (normalize_text query)).isEmpty &&
        !((splitWs (normalize_text query)).all (fun tok =>
          (splitWs (normalize_text
            (name ++ [' '] ++ ic.2.brand.getD []))).contains tok)) then
      none
    else
      match ic.2.price with
      | none => none
      | some price =>
        if passesFilters filters price ic.2.brand = false then none
        else
          some
            { product_id := ic.1, name := name, brand := ic.2.brand,
              category := none, image_url := ic.2.image_url,
              product_url :=
                scraperUrl "https://www.falabella.com.pe".data ic.2.href,
              price := price, currency := "PEN".data, store_id := 2,
              store_name := "Falabella Online".data,
              store_location := FALABELLA_LOCATION,
              distance_km :=
                user_location.map (fun u => geo u FALABELLA_LOCATION),
              payment_methods := ["tarjeta".data, "efectivo".data] }

/-- main.py `scrape_falabella_live` after the HTTP/HTML stage. -/
def scrape_falabella_live (geo : Location → Location → ℚ) (query : Str)
    (user_location : Option Location) (filters : Option SearchFilters)
    (pods : List FalabellaPod) : List ProductResult :=
  scraperSort user_location
    ((pyEnumFrom 1 pods).filterMap
      (falabellaBuild geo query user_location filters))

/-- The Strict Match Filter in the claim's substring reading: every token
of the normalized query appears in the normalized name-plus-brand text. -/
def strictSubOk (query : Str) (r : ProductResult) : Bool :=
  (splitWs (normalize_text query)).all (fun tok =>
    isSubstr tok (normalize_text (r.name ++ [' '] ++ r.brand.getD [])))

/-- Concrete pod for the C2 witness. -/
def podC2 : FalabellaPod :=
  { href := none, brand := some "Samsung".data,
    name := some "Samsung TV".data, price := some 999, image_url := none }

/-- The record `scrape_falabella_live` builds from `podC2`. -/
def recC2 : ProductResult :=
  { product_id := 1, name := "Samsung TV".data, brand := some "Samsung".data,
    category := none, image_url := none, product_url := none, price := 999,
    currency := "PEN".data, store_id := 2,
    store_name := "Falabella Online".data,
    store_location := FALABELLA_LOCATION, distance_km := none,
    payment_methods := ["tarjeta".data, "efectivo".data] }

/-! ## Aggregator (main.py, search_all_stores, lines 1289-1412)

The six connector invocations can raise (network or parse errors) or be
missing (ImportError of the optional VTEX / Inkafarma scraper modules).
An invocation outcome is an `Except`; the source catches ONLY the
ImportError (availability flag false substitutes empty lists) and wraps
nothing else in try/except, so any raised exception propagates. -/
/-- A Python exception escaping a connector call. -/
inductive PyExn where
  | network
  | parse
  | validation
deriving DecidableEq

/-- The outcomes of the six connector invocations of one request, plus
availability of the two optional scraper modules. -/
structure FetchOutcomes where
  vtexAvailable : Bool
  promart : Except PyExn (List ProductResult)
  oechsle : Except PyExn (List ProductResult)
  plazavea : Except PyExn (List ProductResult)
  hiraoka : Except PyExn (List ProductResult)
  falabella : Except PyExn (List ProductResult)
  inkafarmaAvailable : Bool
  inkafarma : Except PyExn (List ProductResult)

/-- Steps 3-6 of search_all_stores up to (not including) dedup: combine,
smart-filter when nonempty, and sort by `(price, store_name)` only when no
user location was supplied. -/
def preDedup (hir fal pro oec pla ink : List ProductResult)
    (user_location : Option Location) (corrected_query : Str) :
    List ProductResult :=
  let all_results := hir ++ fal ++ pro ++ oec ++ pla ++ ink
  let all2 :=
    if all_results.isEmpty then all_results
    else smart_search_filter all_results corrected_query
  match user_location with
  | none => List.insertionSort priceStoreLe all2
  | some _ => all2

/-- Steps 3-6 of search_all_stores: combine, smart-filter, conditionally
sort, dedup, truncate to 50. -/
def searchCore (hir fal pro oec pla ink : List ProductResult)
    (user_location : Option Location) (corrected_query : Str) :
    List ProductResult :=
  (dedupe (preDedup hir fal pro oec pla ink user_location
    corrected_query)).take 50

/-- main.py `search_all_stores`: reject an empty query, correct the query,
invoke the six connectors (only a missing optional module is substituted
by an empty list; raised exceptions propagate), then aggregate. -/
def search_all_stores (scorer : Str → Str → ℕ) (query : Str)
    (user_location : Option Location) (f : FetchOutcomes) :
    Except PyExn (List ProductResult) :=
  if query.isEmpty then Except.error PyExn.validation
  else
    let corrected_query := correct_search_query scorer query none
    do
      let vtex ←
        if f.vtexAvailable then do
          let p ← f.promart
          let o ← f.oechsle
          let pl ← f.plazavea
          pure (p, o, pl)
        else pure ([], [], [])
      let hir ← f.hiraoka
      let fal ← f.falabella
      let ink ← if f.inkafarmaAvailable then f.inkafarma else pure []
      pure (searchCore hir fal vtex.1 vtex.2.1 vtex.2.2 ink user_location
        corrected_query)

/-- The connector outcomes of the C1 counterexample: every connector fine
except Hiraoka, which raises a network error. -/
def fetchC1 : FetchOutcomes :=
  { vtexAvailable := false, promart := Except.ok [], oechsle := Except.ok [],
    plazavea := Except.ok [], hiraoka := Except.error PyExn.network,
    falabella := Except.ok [], inkafarmaAvailable := false,
    inkafarma := Except.ok [] }

/-- Fetch outcomes for the C1 witness: optional modules missing, both
always-on connectors succeed. -/
def fetchC1ok : FetchOutcomes :=
  { vtexAvailable := false, promart := Except.ok [], oechsle := Except.ok [],
    plazavea := Except.ok [], hiraoka := Except.ok [],
    falabella := Except.ok [], inkafarmaAvailable := false,
    inkafarma := Except.ok [] }

/-- No intent keyword fires in the query. -/
def noIntent (q : Str) : Bool :=
  !(anyWordIn priceWords (normalize_text q)) &&
    !(anyWordIn premiumWords (normalize_text q)) &&
    (brand_keywords.find?
      (fun p => isSubstr p.1 (normalize_text q))).isNone

/-! Idempotence machinery for `normalize_text`. -/
theorem assocFind_mem {α : Type} {tbl : List (Char × α)} {c : Char} {v : α}
    (h : assocFind tbl c = some v) : (c, v) ∈ tbl := by
  induction tbl with
  | nil => simp [assocFind] at h
  | cons p ps ih =>
    rcases p with ⟨k, w⟩
    simp only [assocFind] at h
    by_cases hk : k = c
    · rw [if_pos hk] at h
      injection h with h2
      subst h2
      subst hk
      exact List.mem_cons_self _ _
    · rw [if_neg hk] at h
      exact List.mem_cons_of_mem _ (ih h)

theorem assocFind_none {α : Type} {tbl : List (Char × α)} {c : Char}
    (h : ∀ v, (c, v) ∉ tbl) : assocFind tbl c = none := by
  induction tbl with
  | nil => rfl
  | cons p ps ih =>
    cases p with
    | mk k v =>
      have hk : ¬ (k = c) := by
        intro hkc
        exact h v (by simp [hkc])
      simp only [assocFind, hk, if_false]
      exact ih (fun w hw => h w (List.mem_cons_of_mem _ hw))

theorem normalize_text_append (s t : Str) :
    normalize_text (s ++ t) = normalize_text s ++ normalize_text t := by
  simp [normalize_text]

theorem normalize_text_eq_bind (s : Str) :
    normalize_text s = s.flatMap (fun c => normalize_text [c]) := by
  induction s with
  | nil => rfl
  | cons c cs ih =>
    have h : (c :: cs) = [c] ++ cs := rfl
    rw [h, normalize_text_append, ih]
    rfl

theorem fixedPt_spec {c : Char} (h : fixedPt c = true) :
    normalize_text [c] = [c] := by
  simpa [fixedPt] using h

/-- Every character of the image of a lower-table entry is a fixed point:
checked by evaluation over the finite table. -/
theorem lowerTbl_good :
    lowerTbl.all
      (fun p => ((nfdChar p.2).filter (fun c => !(isMn c))).all fixedPt)
      = true := by decide

/-- Every surviving character of an NFD-table entry is a fixed point. -/
theorem nfdTbl_good :
    nfdTbl.all (fun p => (p.2.filter (fun c => !(isMn c))).all fixedPt)
      = true := by decide

theorem normalize_single (c : Char) :
    normalize_text [c] = (nfdChar (pyLower c)).filter (fun c => !(isMn c)) := by
  simp [normalize_text]

theorem normalize_char_fixed (c : Char) :
    ∀ d ∈ normalize_text [c], fixedPt d = true := by
  intro d hd
  rw [normalize_single] at hd
  rcases hl : assocFind lowerTbl c with _ | l
  · have hcc : pyLower c = c := by simp [pyLower, hl]
    rw [hcc] at hd
    rcases hn : assocFind nfdTbl c with _ | ds
    · have hnc : nfdChar c = [c] := by simp [nfdChar, hn]
      rw [hnc] at hd
      rcases List.mem_filter.mp hd with ⟨hmem, hkeep⟩
      have hdc : d = c := by simpa using hmem
      subst hdc
      simp only [fixedPt, normalize_single]
      rw [hcc, hnc]
      simp [List.filter, hkeep]
    · have hmem := assocFind_mem hn
      have := List.all_eq_true.mp nfdTbl_good _ hmem
      have hnds : nfdChar c = ds := by simp [nfdChar, hn]
      rw [hnds] at hd
      exact List.all_eq_true.mp this d hd
  · have hmem := assocFind_mem hl
    have := List.all_eq_true.mp lowerTbl_good _ hmem
    have hpc : pyLower c = l := by simp [pyLower, hl]
    rw [hpc] at hd
    exact List.all_eq_true.mp this d hd

theorem normalize_text_fixed_of_all {s : Str}
    (h : ∀ d ∈ s, fixedPt d = true) : normalize_text s = s := by
  induction s with
  | nil => rfl
  | cons c cs ih =>
    have h1 : normalize_text (c :: cs) = normalize_text [c] ++ normalize_text cs :=
      normalize_text_append [c] cs
    rw [h1, fixedPt_spec (h c (by simp)), ih (fun d hd => h d (by simp [hd]))]
    rfl

theorem normalize_text_idem (s : Str) :
    normalize_text (normalize_text s) = normalize_text s := by
  rw [normalize_text_eq_bind s]
  induction s with
  | nil => rfl
  | cons c cs ih =>
    have h1 : (c :: cs).flatMap (fun c => normalize_text [c])
        = normalize_text [c] ++ cs.flatMap (fun c => normalize_text [c]) := by
      simp [List.flatMap]
    rw [h1, normalize_text_append, ih,
      normalize_text_fixed_of_all (normalize_char_fixed c)]

/-- C9: the text normalizer is total (a Lean function) and idempotent, and
is case- and diacritic-insensitive on the documented example:
normalize("Café") == normalize("cafe") == "cafe". -/
theorem C9_normalize_text_idempotent_and_insensitive :
    (∀ s : Str, normalize_text (normalize_text s) = normalize_text s) ∧
    normalize_text "Café".data = normalize_text "cafe".data ∧
    normalize_text "cafe".data = "cafe".data := by
  refine ⟨normalize_text_idem, ?_, ?_⟩ <;> decide

theorem dedupeAux_sublist (seen : List Str) (l : List ProductResult) :
    (dedupeAux seen l).Sublist l := by
  induction l generalizing seen with
  | nil => simp [dedupeAux]
  | cons r rs ih =>
    by_cases h : dedupKey r ∈ seen
    · simp only [dedupeAux, if_pos h]
      exact (ih seen).cons r
    · simp only [dedupeAux, if_neg h]
      exact (ih (dedupKey r :: seen)).cons₂ r

theorem find?_cons_neg {α : Type} {p : α → Bool} {a : α} {l : List α}
    (h : p a = false) : List.find? p (a :: l) = List.find? p l := by
  simp [List.find?, h]

theorem find?_cons_pos {α : Type} {p : α → Bool} {a : α} {l : List α}
    (h : p a = true) : List.find? p (a :: l) = some a := by
  simp [List.find?, h]

/-- The survivor for a key is the first record with that key in the input:
general form with an explicit seen set. -/
theorem dedupeAux_find (seen : List Str) (l : List ProductResult)
    (r : ProductResult) (hr : r ∈ dedupeAux seen l) :
    dedupKey r ∉ seen ∧
      l.find? (fun s => dedupKey s == dedupKey r) = some r := by
  induction l generalizing seen with
  | nil => simp [dedupeAux] at hr
  | cons a rs ih =>
    by_cases h : dedupKey a ∈ seen
    · simp only [dedupeAux, if_pos h] at hr
      rcases ih seen hr with ⟨hns, hfind⟩
      refine ⟨hns, ?_⟩
      have hne : (fun s => dedupKey s == dedupKey r) a = false := by
        simp only [beq_eq_false_iff_ne, ne_eq]
        intro hk
        exact hns (hk ▸ h)
      rw [@find?_cons_neg _ (fun s => dedupKey s == dedupKey r) a rs hne]
      exact hfind
    · simp only [dedupeAux, if_neg h] at hr
      rcases List.mem_cons.mp hr with rfl | hr1
      · refine ⟨h, ?_⟩
        rw [@find?_cons_pos _ (fun s => dedupKey s == dedupKey r) r rs (by simp)]
      · rcases ih _ hr1 with ⟨hns, hfind⟩
        have hns2 : dedupKey r ∉ seen := fun hx => hns (by simp [hx])
        have hne : (fun s => dedupKey s == dedupKey r) a = false := by
          simp only [beq_eq_false_iff_ne, ne_eq]
          intro hk
          exact hns (by simp [hk])
        rw [@find?_cons_neg _ (fun s => dedupKey s == dedupKey r) a rs hne]
        exact ⟨hns2, hfind⟩

/-- Keys are pairwise distinct after dedup. -/
theorem dedupeAux_pairwise (seen : List Str) (l : List ProductResult) :
    (dedupeAux seen l).Pairwise (fun a b => dedupKey a ≠ dedupKey b) := by
  induction l generalizing seen with
  | nil => simp [dedupeAux]
  | cons r rs ih =>
    by_cases h : dedupKey r ∈ seen
    · simp only [dedupeAux, if_pos h]
      exact ih seen
    · simp only [dedupeAux, if_neg h]
      refine List.Pairwise.cons ?_ (ih _)
      intro b hb hkey
      rcases dedupeAux_find _ _ _ hb with ⟨hns, _⟩
      exact hns (by simp [← hkey])

theorem extractOneAux_mem (scorer : Str → Str → ℕ) (q : Str)
    (best : Str × ℕ) (l : List Str) :
    (extractOneAux scorer q best l).1 = best.1 ∨
      (extractOneAux scorer q best l).1 ∈ l := by
  induction l generalizing best with
  | nil => exact Or.inl rfl
  | cons s rest ih =>
    simp only [extractOneAux]
    by_cases h : best.2 < scorer q s
    · rw [if_pos h]
      rcases ih (s, scorer q s) with h1 | h1
      · exact Or.inr (by simp [h1])
      · exact Or.inr (List.mem_cons_of_mem _ h1)
    · rw [if_neg h]
      rcases ih best with h1 | h1
      · exact Or.inl h1
      · exact Or.inr (List.mem_cons_of_mem _ h1)

theorem extractOne_mem (scorer : Str → Str → ℕ) (q : Str)
    (l : List Str) (s : Str) (sc : ℕ)
    (h : extractOne scorer q l = some (s, sc)) : s ∈ l := by
  match l with
  | [] => simp [extractOne] at h
  | a :: rest =>
    simp only [extractOne] at h
    injection h with h1
    rcases extractOneAux_mem scorer q (a, scorer q a) rest with h2 | h2
    · rw [h1] at h2
      exact List.mem_cons.mpr (Or.inl h2)
    · rw [h1] at h2
      exact List.mem_cons_of_mem _ h2

/-- C7: the Query Corrector never rejects a query: an exact
case-insensitive vocabulary hit is returned unchanged, a best fuzzy score
strictly above 80 rewrites to that vocabulary entry, and anything else
returns the original query; the output is always the query itself or a
vocabulary entry. -/
theorem C7_corrector_never_rejects (scorer : Str → Str → ℕ) (query : Str)
    (suggestions : Option (List Str)) :
    (correct_search_query scorer query suggestions = query ∨
      correct_search_query scorer query suggestions ∈
        effectiveSuggestions suggestions) ∧
    (pyLowerStr query ∈ (effectiveSuggestions suggestions).map pyLowerStr →
      correct_search_query scorer query suggestions = query) ∧
    (∀ s sc,
      pyLowerStr query ∉ (effectiveSuggestions suggestions).map pyLowerStr →
      extractOne scorer (pyLowerStr query) (effectiveSuggestions suggestions)
        = some (s, sc) →
      (80 < sc → correct_search_query scorer query suggestions = s) ∧
      (sc ≤ 80 → correct_search_query scorer query suggestions = query)) := by
  refine ⟨?_, ?_, ?_⟩
  · unfold correct_search_query
    by_cases h : (((effectiveSuggestions suggestions).map pyLowerStr).contains
        (pyLowerStr query)) = true
    · rw [if_pos h]
      exact Or.inl rfl
    · rw [if_neg h]
      rcases he : extractOne scorer (pyLowerStr query)
          (effectiveSuggestions suggestions) with _ | ⟨s, sc⟩
      · exact Or.inl rfl
      · change (if 80 < sc then s else query) = query ∨
          (if 80 < sc then s else query) ∈ effectiveSuggestions suggestions
        by_cases hsc : 80 < sc
        · rw [if_pos hsc]
          exact Or.inr (extractOne_mem _ _ _ _ _ he)
        · rw [if_neg hsc]
          exact Or.inl rfl
  · intro h
    unfold correct_search_query
    rw [if_pos (List.elem_iff.mpr h)]
  · intro s sc hnot he
    have hc : (((effectiveSuggestions suggestions).map pyLowerStr).contains
        (pyLowerStr query)) ≠ true := by
      intro hcontains
      exact hnot (List.elem_iff.mp hcontains)
    constructor
    · intro hsc
      unfold correct_search_query
      rw [if_neg hc, he]
      simp [hsc]
    · intro hsc
      unfold correct_search_query
      rw [if_neg hc, he]
      simp [Nat.not_lt.mpr hsc]

set_option maxRecDepth 4000 in
/-- Witness for C7 at a concrete scorer, query and the default
vocabulary. -/
theorem C7_witness :
    correct_search_query (fun _ _ => 100) "xphone".data none = "iphone".data :=
  ((C7_corrector_never_rejects (fun _ _ => 100) "xphone".data none).2.2
    "iphone".data 100 (by decide) (by decide)).1 (by decide)

theorem brandLoop_find_some (query_lower : Str)
    (products : List ProductResult) (tbl : List (Str × Str)) (kw b : Str)
    (h : tbl.find? (fun p => isSubstr p.1 query_lower) = some (kw, b)) :
    brandLoop query_lower products tbl = products.filter (brandMatches b) := by
  induction tbl with
  | nil => simp [List.find?] at h
  | cons p rest ih =>
    rcases p with ⟨k0, b0⟩
    by_cases hk : isSubstr k0 query_lower = true
    · rw [@find?_cons_pos _ (fun p => isSubstr p.1 query_lower) (k0, b0) rest hk] at h
      injection h with h1
      injection h1 with h2 h3
      subst h2
      subst h3
      simp [brandLoop, hk]
    · have hk2 : (fun p => isSubstr p.1 query_lower) (k0, b0) = false := by
        simpa using hk
      rw [@find?_cons_neg _ (fun p => isSubstr p.1 query_lower) (k0, b0) rest hk2] at h
      simp only [brandLoop, if_neg hk]
      exact ih h

theorem brandLoop_find_none (query_lower : Str)
    (products : List ProductResult) (tbl : List (Str × Str))
    (h : tbl.find? (fun p => isSubstr p.1 query_lower) = none) :
    brandLoop query_lower products tbl = products := by
  induction tbl with
  | nil => rfl
  | cons p rest ih =>
    rcases p with ⟨k0, b0⟩
    by_cases hk : isSubstr k0 query_lower = true
    · rw [@find?_cons_pos _ (fun p => isSubstr p.1 query_lower) (k0, b0) rest hk] at h
      cases h
    · have hk2 : (fun p => isSubstr p.1 query_lower) (k0, b0) = false := by
        simpa using hk
      rw [@find?_cons_neg _ (fun p => isSubstr p.1 query_lower) (k0, b0) rest hk2] at h
      simp only [brandLoop, if_neg hk]
      exact ih h

/-- C6: the Intent Filter applies at most one intent class, first match
wins in the order price-sensitive, premium, brand: price-sensitive sorts
ascending by price and truncates to 10; premium keeps records priced at or
above the mean, sorts descending and truncates to 10; brand keeps records
whose brand case-insensitively contains the mapped name, untruncated; no
match returns the input unchanged. -/
theorem C6_intent_filter_first_match_wins
    (ps : List ProductResult) (q : Str) :
    (anyWordIn priceWords (normalize_text q) = true →
      smart_search_filter ps q = (List.insertionSort priceLe ps).take 10) ∧
    (anyWordIn priceWords (normalize_text q) = false →
      anyWordIn premiumWords (normalize_text q) = true →
      smart_search_filter ps q =
        (List.insertionSort priceGe
          (ps.filter (fun p => meanPrice ps ≤ p.price))).take 10) ∧
    (anyWordIn priceWords (normalize_text q) = false →
      anyWordIn premiumWords (normalize_text q) = false →
      ∀ kw b,
        brand_keywords.find? (fun p => isSubstr p.1 (normalize_text q))
          = some (kw, b) →
        smart_search_filter ps q = ps.filter (brandMatches b)) ∧
    (anyWordIn priceWords (normalize_text q) = false →
      anyWordIn premiumWords (normalize_text q) = false →
      brand_keywords.find? (fun p => isSubstr p.1 (normalize_text q)) = none →
      smart_search_filter ps q = ps) := by
  refine ⟨?_, ?_, ?_, ?_⟩
  · intro h
    simp [smart_search_filter, h]
  · intro h1 h2
    simp [smart_search_filter, h1, h2]
  · intro h1 h2 kw b hf
    simp only [smart_search_filter, h1, h2, Bool.false_eq_true, if_false]
    exact brandLoop_find_some _ _ _ _ _ hf
  · intro h1 h2 hf
    simp only [smart_search_filter, h1, h2, Bool.false_eq_true, if_false]
    exact brandLoop_find_none _ _ _ hf

set_option maxRecDepth 4000 in
/-- Witness for C6: a query holding both a price word and a premium word
takes the price branch (first match wins). -/
theorem C6_witness :
    smart_search_filter
      [sampleRec "tv a".data none 200 1 "A".data none,
       sampleRec "tv b".data none 100 2 "B".data none]
      "televisor barato mejor".data
    = (List.insertionSort priceLe
        [sampleRec "tv a".data none 200 1 "A".data none,
         sampleRec "tv b".data none 100 2 "B".data none]).take 10 :=
  (C6_intent_filter_first_match_wins
    [sampleRec "tv a".data none 200 1 "A".data none,
     sampleRec "tv b".data none 100 2 "B".data none]
    "televisor barato mejor".data).1 (by decide)

/-- C5 counterexample: two records of the same product from the SAME store
still produce a comparison, because the code only checks
`len(matching_products) < 2` and never counts distinct stores. -/
theorem C5_counterexample :
    ((get_price_comparison
        [sampleRec "foo".data none 10 1 "Hiraoka Online".data none,
         sampleRec "foo".data none 20 1 "Hiraoka Online".data none]
        "foo".data).isSome = true) ∧
    ([sampleRec "foo".data none 10 1 "Hiraoka Online".data none,
      sampleRec "foo".data none 20 1 "Hiraoka Online".data none].all
        (fun r => r.store_name == "Hiraoka Online".data) = true) := by
  decide

/-- C5 amended: a ComparisonGroup is emitted exactly when at least two
records match the product name, regardless of how many distinct stores
they come from. -/
theorem C5_amended_comparison_iff_two_matching
    (products : List ProductResult) (product_name : Str) :
    (get_price_comparison products product_name).isSome = true ↔
      2 ≤ (matchingProducts products product_name).length := by
  unfold get_price_comparison
  by_cases hp : products.isEmpty
  · have hempty : products = [] := List.isEmpty_iff.mp hp
    subst hempty
    simp [matchingProducts]
  · rw [if_neg hp]
    rcases hm : matchingProducts products product_name with _ | ⟨p0, _ | ⟨p1, rest⟩⟩
    · simp
    · simp
    · simp [hm]

/-- C8: the reported median is the standard odd/even-count formula on the
sorted price list of the matching records (rounded to 2 decimals as the
code does for presentation); on the documented examples the median of
[10,20,30,40] is 25 and of [10,20,30] is 20. -/
theorem C8_median_standard_formula :
    (∀ (products : List ProductResult) (product_name : Str),
      products.isEmpty = false →
      (matchingProducts products product_name).isEmpty = false →
      (get_price_statistics products product_name).map
          (fun st => st.median_price) =
        some (pyRound2 (medianStd
          ((matchingProducts products product_name).map
            (fun p => p.price))))) ∧
    ((get_price_statistics
        [sampleRec "x".data none 10 1 "A".data none,
         sampleRec "x".data none 20 2 "B".data none,
         sampleRec "x".data none 30 3 "C".data none,
         sampleRec "x".data none 40 4 "D".data none]
        "x".data).map (fun st => st.median_price) = some 25) ∧
    ((get_price_statistics
        [sampleRec "x".data none 10 1 "A".data none,
         sampleRec "x".data none 20 2 "B".data none,
         sampleRec "x".data none 30 3 "C".data none]
        "x".data).map (fun st => st.median_price) = some 20) := by
  refine ⟨?_, ?_, ?_⟩
  · intro products product_name hp hm
    unfold get_price_statistics
    rw [Bool.eq_false_iff] at hp
    rw [if_neg hp]
    rcases hmm : matchingProducts products product_name with _ | ⟨p0, rest⟩
    · rw [hmm] at hm
      simp at hm
    · simp only [medianStd, hmm]
      rfl
  · simp +decide [get_price_statistics, matchingProducts, sampleRec,
      List.insertionSort, List.orderedInsert]
    norm_num [pyRound2]
  · simp +decide [get_price_statistics, matchingProducts, sampleRec,
      List.insertionSort, List.orderedInsert]
    norm_num [pyRound2]

/-- Witness for C8 applying the general conjunct at a concrete input. -/
theorem C8_witness :
    (get_price_statistics
        [sampleRec "x".data none 10 1 "A".data none,
         sampleRec "x".data none 30 2 "B".data none]
        "x".data).map (fun st => st.median_price) =
      some (pyRound2 (medianStd
        ((matchingProducts
            [sampleRec "x".data none 10 1 "A".data none,
             sampleRec "x".data none 30 2 "B".data none]
            "x".data).map (fun p => p.price)))) :=
  C8_median_standard_formula.1
    [sampleRec "x".data none 10 1 "A".data none,
     sampleRec "x".data none 30 2 "B".data none]
    "x".data (by decide) (by decide)

theorem pyEnumFrom_mem_lt {α : Type} (j : ℕ) (l : List α) (i : ℕ) (a : α)
    (h : (i, a) ∈ pyEnumFrom j l) : i < j + l.length := by
  induction l generalizing j with
  | nil => simp [pyEnumFrom] at h
  | cons b bs ih =>
    simp only [pyEnumFrom] at h
    rcases List.mem_cons.mp h with h1 | h1
    · injection h1 with h2 h3
      subst h2
      simp
    · have := ih (j + 1) h1
      simp only [List.length_cons]
      omega

/-- C10: every recommendation score lies between 86 and 100: the +1..+10
positional bonus always outweighs the worst-case -15 price penalty, and
the clamp caps the score at 100. -/
theorem C10_recommendation_score_bounds (ps : List ProductResult) (q : Str)
    (r : ProductRecommendation) (hr : r ∈ generate_recommendations ps q) :
    86 ≤ r.score ∧ r.score ≤ 100 := by
  match ps with
  | [] => simp [generate_recommendations] at hr
  | p0 :: ps0 =>
    unfold generate_recommendations at hr
    rw [(List.perm_insertionSort scoreGe _).mem_iff] at hr
    rcases List.mem_map.mp hr with ⟨ip, hip, hf⟩
    rcases ip with ⟨idx, product⟩
    have hidx : idx < 10 := by
      have h1 := pyEnumFrom_mem_lt 0 ((p0 :: ps0).take 10) idx product hip
      have h2 : ((p0 :: ps0).take 10).length ≤ 10 := by
        rw [List.length_take]
        omega
      omega
    have hidxq : ((idx : ℚ)) ≤ 9 := by
      have : (idx : ℚ) ≤ (9 : ℕ) := by
        exact_mod_cast Nat.le_of_lt_succ hidx
      simpa using this
    subst hf
    simp only []
    constructor
    · apply le_min
      · norm_num
      · by_cases h1 : product.price <
          pySum (List.map (fun p => p.price) (p0 :: ps0)) /
            ((p0 :: ps0).length : ℚ) * (8/10)
        · rw [if_pos h1]
          by_cases h3 : product.store_name ∈ trusted_stores
          · rw [if_pos h3]
            linarith
          · rw [if_neg h3]
            linarith
        · rw [if_neg h1]
          by_cases h2 : pySum (List.map (fun p => p.price) (p0 :: ps0)) /
              ((p0 :: ps0).length : ℚ) * (12/10) < product.price
          · rw [if_pos h2]
            by_cases h3 : product.store_name ∈ trusted_stores
            · rw [if_pos h3]
              linarith
            · rw [if_neg h3]
              linarith
          · rw [if_neg h2]
            by_cases h3 : product.store_name ∈ trusted_stores
            · rw [if_pos h3]
              linarith
            · rw [if_neg h3]
              linarith
    · exact min_le_left _ _

/-- Witness for C10 at a concrete input. -/
theorem C10_witness : 86 ≤ recC10.score ∧ recC10.score ≤ 100 :=
  C10_recommendation_score_bounds psC10 "q".data recC10 (by
    norm_num +decide [generate_recommendations, psC10, recC10, pyEnumFrom,
      pySum, trusted_stores, sampleRec, List.insertionSort,
      List.orderedInsert, min_def])

/-- C2 counterexample: the Hiraoka connector returns a record that does
not contain the query token at all, so its fetch does NOT apply the
Strict Match Filter internally. -/
theorem C2_counterexample :
    (scrape_hiraoka_live (fun _ _ => 0) "samsung".data none none
      [{ name := some "Televisor LG".data, href := none, brand := none,
         price := some 999, image_url := none }]).all
      (strictSubOk "samsung".data) = false := by decide

theorem falabellaBuild_strict (geo : Location → Location → ℚ)
    (query : Str) (user_location : Option Location)
    (filters : Option SearchFilters) (ic : ℕ × FalabellaPod)
    (r : ProductResult)
    (h : falabellaBuild geo query user_location filters ic = some r) :
    (splitWs (normalize_text query)).all (fun tok =>
      (splitWs (normalize_text
        (r.name ++ [' '] ++ r.brand.getD []))).contains tok) = true := by
  unfold falabellaBuild at h
  rcases hn : ic.2.name with _ | name
  · rw [hn] at h
    cases h
  · rw [hn] at h
    simp only [] at h
    by_cases hq : (!(splitWs (normalize_text query)).isEmpty &&
        !((splitWs (normalize_text query)).all (fun tok =>
          (splitWs (normalize_text
            (name ++ [' '] ++ ic.2.brand.getD []))).contains tok))) = true
    · rw [if_pos hq] at h
      cases h
    · rw [if_neg hq] at h
      rcases hp : ic.2.price with _ | price
      · rw [hp] at h
        simp only [] at h
        cases h
      · rw [hp] at h
        simp only [] at h
        by_cases hf : passesFilters filters price ic.2.brand = false
        · rw [if_pos hf] at h
          cases h
        · rw [if_neg hf] at h
          injection h with h1
          have hname : r.name = name := by rw [← h1]
          have hbrand : r.brand = ic.2.brand := by rw [← h1]
          rw [hname, hbrand]
          rcases Bool.and_eq_false_iff.mp (Bool.eq_false_iff.mpr hq)
            with h2 | h2
          · have : (splitWs (normalize_text query)).isEmpty = true := by
              simpa using h2
            rw [List.isEmpty_iff.mp this]
            rfl
          · simpa using h2

/-- C2 amended: the Falabella connector applies the Strict Match Filter
internally before returning (every normalized query token is an exact
word of the normalized name-plus-brand, the empty token list matching
everything); the Hiraoka connector does not. -/
theorem C2_amended_falabella_strict_internal
    (geo : Location → Location → ℚ) (query : Str)
    (user_location : Option Location) (filters : Option SearchFilters)
    (pods : List FalabellaPod) (r : ProductResult)
    (hr : r ∈ scrape_falabella_live geo query user_location filters pods) :
    (splitWs (normalize_text query)).all (fun tok =>
      (splitWs (normalize_text
        (r.name ++ [' '] ++ r.brand.getD []))).contains tok) = true := by
  unfold scrape_falabella_live scraperSort at hr
  have hr2 : r ∈ (pyEnumFrom 1 pods).filterMap
      (falabellaBuild geo query user_location filters) := by
    rcases user_location with _ | u
    · exact (List.perm_insertionSort priceLe _).mem_iff.mp hr
    · exact (List.perm_insertionSort distPriceLe _).mem_iff.mp hr
  rcases List.mem_filterMap.mp hr2 with ⟨ic, _, heq⟩
  exact falabellaBuild_strict geo query user_location filters ic r heq

/-- Witness for the amended C2 at a concrete pod list. -/
theorem C2_witness :
    (splitWs (normalize_text "samsung".data)).all (fun tok =>
      (splitWs (normalize_text
        (recC2.name ++ [' '] ++ recC2.brand.getD []))).contains tok)
      = true :=
  C2_amended_falabella_strict_internal (fun _ _ => 0) "samsung".data none
    none [podC2] recC2 (by decide)

/-- C1 counterexample: a network error in the (always-invoked) Hiraoka
connector is NOT caught per-connector: the whole combined search aborts
with the error instead of returning a ranked response. -/
theorem C1_counterexample :
    search_all_stores (fun _ _ => 0) "tv".data none fetchC1
      = Except.error PyExn.network := rfl

/-- C1 amended: only the missing-optional-module failure (VTEX trio,
Inkafarma) is caught and replaced by an empty contribution; when every
invoked connector returns normally the search returns a ranked list, and
an exception raised by an invoked connector (here: Hiraoka) propagates
and aborts the whole search. -/
theorem C1_amended_only_missing_modules_caught (scorer : Str → Str → ℕ)
    (query : Str) (loc : Option Location) (f : FetchOutcomes)
    (hq : query.isEmpty = false) :
    (∀ hir fal,
      f.vtexAvailable = false → f.inkafarmaAvailable = false →
      f.hiraoka = Except.ok hir → f.falabella = Except.ok fal →
      search_all_stores scorer query loc f =
        Except.ok (searchCore hir fal [] [] [] [] loc
          (correct_search_query scorer query none))) ∧
    (∀ e, f.vtexAvailable = false → f.hiraoka = Except.error e →
      search_all_stores scorer query loc f = Except.error e) ∧
    (∀ pro oec pla hir fal ik,
      f.vtexAvailable = true → f.inkafarmaAvailable = true →
      f.promart = Except.ok pro → f.oechsle = Except.ok oec →
      f.plazavea = Except.ok pla → f.hiraoka = Except.ok hir →
      f.falabella = Except.ok fal → f.inkafarma = Except.ok ik →
      search_all_stores scorer query loc f =
        Except.ok (searchCore hir fal pro oec pla ik loc
          (correct_search_query scorer query none))) := by
  refine ⟨?_, ?_, ?_⟩
  · intro hir fal h1 h2 h3 h4
    simp [search_all_stores, hq, h1, h2, h3, h4, Bind.bind, Except.bind,
      Pure.pure, Except.pure]
  · intro e h1 h2
    simp [search_all_stores, hq, h1, h2, Bind.bind, Except.bind,
      Pure.pure, Except.pure]
  · intro pro oec pla hir fal ik h1 h2 h3 h4 h5 h6 h7 h8
    simp [search_all_stores, hq, h1, h2, h3, h4, h5, h6, h7, h8,
      Bind.bind, Except.bind, Pure.pure, Except.pure]

/-- Witness for the amended C1 at concrete outcomes. -/
theorem C1_witness :
    search_all_stores (fun _ _ => 0) "tv".data none fetchC1ok =
      Except.ok (searchCore [] [] [] [] [] [] none
        (correct_search_query (fun _ _ => 0) "tv".data none)) :=
  (C1_amended_only_missing_modules_caught (fun _ _ => 0) "tv".data none
    fetchC1ok (by decide)).1 [] [] rfl rfl rfl rfl

/-- C3 counterexample: with a user location, the combined output is NOT
re-sorted by `(distance_km, price)` - the Hiraoka record at distance 5
keeps its place ahead of the Falabella record at distance 1. -/
theorem C3_counterexample :
    ¬ List.Pairwise distPriceLe
      (searchCore
        [sampleRec "tv a".data none 100 1 "Hiraoka Online".data (some 5)]
        [sampleRec "tv b".data none 50 2 "Falabella Online".data (some 1)]
        [] [] [] [] (some { lat := 0, lon := 0 }) "televisor".data) := by
  decide

/-- C3 amended: without a location the final output is sorted ascending
by the tuple `(price, store_name)`; with a location the aggregator applies
no global re-sort - the output is merely an order-preserving sublist (by
dedup and truncation) of the smart-filtered concatenation. -/
theorem C3_amended_ranking (hir fal pro oec pla ink : List ProductResult)
    (q : Str) :
    List.Pairwise priceStoreLe (searchCore hir fal pro oec pla ink none q) ∧
    (∀ u : Location,
      (searchCore hir fal pro oec pla ink (some u) q).Sublist
        (smart_search_filter (hir ++ fal ++ pro ++ oec ++ pla ++ ink) q)) := by
  constructor
  · have hsorted : List.Pairwise priceStoreLe
        (preDedup hir fal pro oec pla ink none q) :=
      List.sorted_insertionSort priceStoreLe _
    have hsub : (searchCore hir fal pro oec pla ink none q).Sublist
        (preDedup hir fal pro oec pla ink none q) :=
      (List.take_sublist _ _).trans (dedupeAux_sublist _ _)
    exact hsorted.sublist hsub
  · intro u
    have hsub : (searchCore hir fal pro oec pla ink (some u) q).Sublist
        (preDedup hir fal pro oec pla ink (some u) q) :=
      (List.take_sublist _ _).trans (dedupeAux_sublist _ _)
    by_cases he : (hir ++ fal ++ pro ++ oec ++ pla ++ ink).isEmpty = true
    · have he2 : hir ++ fal ++ pro ++ oec ++ pla ++ ink = [] :=
        List.isEmpty_iff.mp he
      have hpre : preDedup hir fal pro oec pla ink (some u) q = [] := by
        simp only [preDedup]
        rw [he2]
        rfl
      rw [hpre] at hsub
      exact (List.sublist_nil.mp hsub) ▸ List.nil_sublist _
    · have hpre : preDedup hir fal pro oec pla ink (some u) q =
          smart_search_filter (hir ++ fal ++ pro ++ oec ++ pla ++ ink) q := by
        simp only [preDedup]
        rw [if_neg he]
      rw [hpre] at hsub
      exact hsub

/-- C4 counterexample: without a location the list is price-sorted BEFORE
dedup, so for two records sharing a dedup key the cheaper one survives,
not the one concatenated first (the Hiraoka record came first but the
cheaper Falabella record survives). -/
theorem C4_counterexample :
    searchCore
      [sampleRec "tv x".data none 200 1 "Hiraoka Online".data none]
      [sampleRec "tv x".data none 100 2 "Falabella Online".data none]
      [] [] [] [] none "televisor".data
      = [sampleRec "tv x".data none 100 2 "Falabella Online".data none] ∧
    sampleRec "tv x".data none 100 2 "Falabella Online".data none ≠
      sampleRec "tv x".data none 200 1 "Hiraoka Online".data none := by
  constructor
  · decide
  · decide

theorem smart_search_filter_id_of_noIntent (ps : List ProductResult)
    (q : Str) (h : noIntent q = true) : smart_search_filter ps q = ps := by
  unfold noIntent at h
  rcases Bool.and_eq_true_iff.mp h with ⟨h12, h3⟩
  rcases Bool.and_eq_true_iff.mp h12 with ⟨h1, h2⟩
  have h1f : anyWordIn priceWords (normalize_text q) = false := by
    simpa using h1
  have h2f : anyWordIn premiumWords (normalize_text q) = false := by
    simpa using h2
  have h3f : brand_keywords.find?
      (fun p => isSubstr p.1 (normalize_text q)) = none := by
    simpa [Option.isNone_iff_eq_none] using h3
  simp only [smart_search_filter, h1f, h2f, Bool.false_eq_true, if_false]
  exact brandLoop_find_none _ _ _ h3f

/-- C4 amended: dedup keeps exactly one record per key - the FIRST one in
the order the list has when dedup runs.  Because the no-location branch
sorts by `(price, store_name)` before dedup, without a location the
survivor is the cheapest record of its key, not the concatenation-first
one; with a location and no intent keyword, the pre-dedup order IS the
source-concatenation order, so there the concatenation-first record
survives. -/
theorem C4_amended_dedup_first_of_prededup_order
    (hir fal pro oec pla ink : List ProductResult) (q : Str) :
    (∀ loc, (searchCore hir fal pro oec pla ink loc q).Pairwise
      (fun a b => dedupKey a ≠ dedupKey b)) ∧
    (∀ loc r, r ∈ searchCore hir fal pro oec pla ink loc q →
      (preDedup hir fal pro oec pla ink loc q).find?
        (fun s => dedupKey s == dedupKey r) = some r) ∧
    (∀ u : Location, noIntent q = true →
      preDedup hir fal pro oec pla ink (some u) q =
        hir ++ fal ++ pro ++ oec ++ pla ++ ink) := by
  refine ⟨?_, ?_, ?_⟩
  · intro loc
    exact (dedupeAux_pairwise [] _).sublist (List.take_sublist _ _)
  · intro loc r hr
    have hr2 : r ∈ dedupe (preDedup hir fal pro oec pla ink loc q) :=
      (List.take_sublist _ _).mem hr
    exact (dedupeAux_find [] _ r hr2).2
  · intro u h
    by_cases he : (hir ++ fal ++ pro ++ oec ++ pla ++ ink).isEmpty = true
    · have he2 : hir ++ fal ++ pro ++ oec ++ pla ++ ink = [] :=
        List.isEmpty_iff.mp he
      have hpre : preDedup hir fal pro oec pla ink (some u) q = [] := by
        simp only [preDedup]
        rw [he2]
        rfl
      rw [hpre, he2]
    · have hpre : preDedup hir fal pro oec pla ink (some u) q =
          smart_search_filter (hir ++ fal ++ pro ++ oec ++ pla ++ ink) q := by
        simp only [preDedup]
        rw [if_neg he]
      rw [hpre, smart_search_filter_id_of_noIntent _ _ h]

/-- Witness for the amended C4 at a concrete input: with a location and a
neutral query the pre-dedup list is the concatenation, and the survivor
reported for the shared key is the first record of that list. -/
theorem C4_witness :
    (preDedup
        [sampleRec "tv x".data none 200 1 "Hiraoka Online".data (some 1)]
        [sampleRec "tv x".data none 100 2 "Falabella Online".data (some 1)]
        [] [] [] [] (some { lat := 0, lon := 0 }) "televisor".data =
      [sampleRec "tv x".data none 200 1 "Hiraoka Online".data (some 1)] ++
        [sampleRec "tv x".data none 100 2 "Falabella Online".data (some 1)]
        ++ [] ++ [] ++ [] ++ []) ∧
    (preDedup
        [sampleRec "tv x".data none 200 1 "Hiraoka Online".data (some 1)]
        [sampleRec "tv x".data none 100 2 "Falabella Online".data (some 1)]
        [] [] [] [] (some { lat := 0, lon := 0 }) "televisor".data).find?
      (fun s => dedupKey s ==
        dedupKey (sampleRec "tv x".data none 200 1
          "Hiraoka Online".data (some 1))) =
      some (sampleRec "tv x".data none 200 1 "Hiraoka Online".data
        (some 1)) := by
  constructor
  · exact (C4_amended_dedup_first_of_prededup_order
      [sampleRec "tv x".data none 200 1 "Hiraoka Online".data (some 1)]
      [sampleRec "tv x".data none 100 2 "Falabella Online".data (some 1)]
      [] [] [] [] "televisor".data).2.2 { lat := 0, lon := 0 } (by decide)
  · exact (C4_amended_dedup_first_of_prededup_order
      [sampleRec "tv x".data none 200 1 "Hiraoka Online".data (some 1)]
      [sampleRec "tv x".data none 100 2 "Falabella Online".data (some 1)]
      [] [] [] [] "televisor".data).2.1
      (some { lat := 0, lon := 0 })
      (sampleRec "tv x".data none 200 1 "Hiraoka Online".data (some 1))
      (by decide)

end SimpleBackend
